import Mathlib

/-!
ForumThreadUpdater (`index.js`): a shallow embedding and its verified properties.

The script logs in to an SMF forum, fetches the edit form of one post, overlays the
caller's field changes on the scraped form and posts it back.

Modelling conventions.

* A JavaScript string is the list of its UTF-16 code units (`Fin 65536`).
* An `undefined` result of an attribute look-up is `Option.none`.
* A thrown exception, or a rejected promise, is `Except.error`.
* The remote forum and the HTML parser are inputs: every needle call has a given outcome,
  and a page is given by the results of the cheerio queries the script runs on it.
* The digest `sha1` (package `sha1`) is a parameter of every definition that hashes.
* `merge` (package `lodash.merge`, release 4.6.2) is modelled on plain objects whose property
  values are primitive; `Object.prototype` is taken as the engine provides it.
* Console output and the `debug` flag are left out.
-/

namespace ForumThreadUpdater

/-! ## Strings -/

/-- A UTF-16 code unit, the element of a JavaScript string. -/
abbrev CodeUnit := Fin 65536

/-- A JavaScript string, as the sequence of its code units. -/
abbrev JSString := List CodeUnit

/-- The builtin `String.fromCharCode(n)` for a non-negative `n`: the number is truncated to
16 bits. -/
def fromCharCode (n : Nat) : CodeUnit := ⟨n % 65536, Nat.mod_lt _ (by decide)⟩

/-- A string literal, written in ASCII. -/
def lit (s : String) : JSString := s.toList.map (fun c => fromCharCode c.toNat)

/-! ## `String.prototype.to8bit` (index.js 135-153) -/

/-- The arm of the `if / else if / else if / else` chain of the loop body. -/
inductive Branch
  | one
  | two
  | three
  | four
  deriving DecidableEq, Repr

/-- The arm selected for the char code `n` (`n < 128`, `n < 2048`, `n < 65536`, else). -/
def to8bitBranch (n : Nat) : Branch :=
  if n < 128 then Branch.one
  else if n < 2048 then Branch.two
  else if n < 65536 then Branch.three
  else Branch.four

/-- What each arm appends to `sReturn`. JavaScript gives `>>` a higher precedence than `&`
and `&` a higher one than `|`; the parentheses below spell that out. -/
def to8bitEmit : Branch → Nat → JSString
  | Branch.one, n => [fromCharCode n]
  | Branch.two, n => [fromCharCode (192 ||| (n >>> 6)), fromCharCode (128 ||| (n &&& 63))]
  | Branch.three, n =>
      [fromCharCode (224 ||| (n >>> 12)), fromCharCode (128 ||| ((n >>> 6) &&& 63)),
        fromCharCode (128 ||| (n &&& 63))]
  | Branch.four, n =>
      [fromCharCode (240 ||| (n >>> 18)), fromCharCode (128 ||| ((n >>> 12) &&& 63)),
        fromCharCode (128 ||| ((n >>> 6) &&& 63)), fromCharCode (128 ||| (n &&& 63))]

/-- One iteration of the loop: `n = this.charCodeAt(i)`, then `sReturn += ...`. -/
def to8bitStep (sReturn : JSString) (c : CodeUnit) : JSString :=
  sReturn ++ to8bitEmit (to8bitBranch c.val) c.val

/-- The method `to8bit`: the loop runs over the code units in order, starting from `''`. -/
def to8bit (s : JSString) : JSString := s.foldl to8bitStep []

/-! ## `hashPassword` (index.js 129-131) -/

/-- The builtin `toLowerCase` on one code unit below 256: `A`-`Z` and the Latin-1 capitals
`À`-`Þ` (without `×`) move up by 32, every other unit below 256 is its own lower case. -/
def lowerUnit (c : CodeUnit) : CodeUnit :=
  if (65 ≤ c.val ∧ c.val ≤ 90) ∨ (192 ≤ c.val ∧ c.val ≤ 222 ∧ c.val ≠ 215) then
    fromCharCode (c.val + 32)
  else c

/-- The builtin `String.prototype.toLowerCase`, exact on strings whose code units are all below
256. `hashPassword` applies it to an output of `to8bit` only, and such an output has no other
code unit (`to8bit_lt_256`); units from 256 on are left as they are here. -/
def toLowerCase (s : JSString) : JSString := s.map lowerUnit

/-- The function `hashPassword( username, password, session_id )`. -/
def hashPassword (sha1 : JSString → JSString) (username password session_id : JSString) :
    JSString :=
  sha1 (sha1 (toLowerCase (to8bit username) ++ to8bit password) ++ session_id)

/-! ## Reference definitions, written from the specification's wording -/

/-- Specification side: ASCII lower-casing, `A`-`Z` to `a`-`z`, nothing else changes. -/
def asciiLowercase (s : JSString) : JSString :=
  s.map (fun c => if 65 ≤ c.val ∧ c.val ≤ 90 then fromCharCode (c.val + 32) else c)

/-- A string made of ASCII characters only: every code unit is below 128. -/
def IsAscii (s : JSString) : Prop := ∀ c ∈ s, c.val < 128

instance (s : JSString) : Decidable (IsAscii s) :=
  List.decidableBAll (fun c : CodeUnit => c.val < 128) s

/-- Specification side: the UTF-8 bit layout of the value `n`, one number per byte. -/
def utf8Layout (n : Nat) : List Nat :=
  if n < 128 then [n]
  else if n < 2048 then [192 ||| (n >>> 6), 128 ||| (n &&& 63)]
  else [224 ||| (n >>> 12), 128 ||| ((n >>> 6) &&& 63), 128 ||| (n &&& 63)]

/-- Specification side: the code point a surrogate pair stands for. -/
def pairCodePoint (hi lo : CodeUnit) : Nat :=
  65536 + (hi.val - 55296) * 1024 + (lo.val - 56320)

/-- A high surrogate followed by a low surrogate. -/
def IsSurrogatePair (hi lo : CodeUnit) : Prop :=
  55296 ≤ hi.val ∧ hi.val < 56320 ∧ 56320 ≤ lo.val ∧ lo.val < 57344

instance (hi lo : CodeUnit) : Decidable (IsSurrogatePair hi lo) := by
  unfold IsSurrogatePair
  infer_instance

/-- Specification side: the number of bytes of the UTF-8 encoding of a code point. -/
def utf8ByteCount (cp : Nat) : Nat :=
  if cp < 128 then 1 else if cp < 2048 then 2 else if cp < 65536 then 3 else 4

/-! ## Values and plain objects -/

/-- The primitive values that occur as form fields, overrides and cookies. -/
inductive JSVal
  | undefined
  | null
  | num (n : Int)
  | str (s : JSString)
  deriving DecidableEq

/-- A plain object (made by `{}` or an object literal, prototype `Object.prototype`) holding
primitive values: its own enumerable properties, each key once in the objects that occur. -/
abbrev JSObj := List (JSString × JSVal)

/-- The own property `k` of `o`, when `o` has it. -/
def getProp : JSObj → JSString → Option JSVal
  | [], _ => none
  | (k', v) :: o, k => if k' = k then some v else getProp o k

/-- The names every plain object inherits from `Object.prototype`. All are data properties
holding a function, except `__proto__`, an accessor. -/
def inheritedNames : List JSString :=
  [lit "constructor", lit "__defineGetter__", lit "__defineSetter__", lit "hasOwnProperty",
    lit "__lookupGetter__", lit "__lookupSetter__", lit "isPrototypeOf",
    lit "propertyIsEnumerable", lit "toString", lit "valueOf", lit "__proto__",
    lit "toLocaleString"]

/-- The test `k in o`: `k` is an own property of `o` or an inherited name. -/
def inObject (o : JSObj) (k : JSString) : Bool :=
  (getProp o k).isSome || decide (k ∈ inheritedNames)

/-- Making or updating the own property `k` of `o`: an existing property keeps its place, a new
one goes last. This is what `Object.defineProperty` does for every key and what the assignment
`o[k] = v` does for every key other than `__proto__`. -/
def setProp : JSObj → JSString → JSVal → JSObj
  | [], k, v => [(k, v)]
  | (k', v') :: o, k, v => if k' = k then (k, v) :: o else (k', v') :: setProp o k v

/-- The keys of an object, in enumeration order. -/
def keysOf (o : JSObj) : List JSString := o.map Prod.fst

/-- A well-formed object has each key once. -/
def WellFormed (o : JSObj) : Prop := (keysOf o).Nodup

/-- String coercion of a value that is a string or `undefined`, as done by `+` on a string
and by a computed property key. -/
def jsToString : Option JSString → JSString
  | some s => s
  | none => lit "undefined"

/-- A string-or-`undefined` result as a value. -/
def optVal : Option JSString → JSVal
  | some s => JSVal.str s
  | none => JSVal.undefined

/-- The assignment `o[k] = v` of the script, where `v` is a string or `undefined`. When `k` is
`__proto__` and `o` has no own property of that name the assignment goes to the setter
inherited from `Object.prototype`, which ignores a value that is neither an object nor `null`:
nothing is stored. -/
def assignField (o : JSObj) (k : JSString) (v : Option JSString) : JSObj :=
  if k = lit "__proto__" ∧ getProp o k = none then o else setProp o k (optVal v)

/-- The test `eq(object[key], value)` of lodash for a primitive `value`: the read gives the own
property when there is one, else the inherited function or object (equal to no primitive) for
an inherited name, else `undefined`. -/
def eqRead (object : JSObj) (key : JSString) (value : JSVal) : Bool :=
  match getProp object key with
  | some w => decide (w = value)
  | none => if key ∈ inheritedNames then false else decide (value = JSVal.undefined)

/-- The helper `baseAssignValue(object, key, value)` of lodash.merge 4.6.2: `defineProperty` for
the key `__proto__`, the assignment `object[key] = value` for every other key. In both arms
the own property `key` is made or updated. -/
def baseAssignValue (object : JSObj) (key : JSString) (value : JSVal) : JSObj :=
  setProp object key value

/-- The helper `assignMergeValue(object, key, value)` of lodash.merge 4.6.2: the assignment is
made when `value` is defined and `eq(object[key], value)` fails, or when `value` is `undefined`
and `key in object` fails. -/
def assignMergeValue (object : JSObj) (key : JSString) (value : JSVal) : JSObj :=
  if (value ≠ JSVal.undefined ∧ eqRead object key value = false) ∨
      (value = JSVal.undefined ∧ inObject object key = false) then
    baseAssignValue object key value
  else object

/-- The call `merge( object, source )` of lodash.merge 4.6.2 on plain objects with primitive
values: every own property of `source` goes through `assignMergeValue`. (lodash documents:
"Source properties that resolve to undefined are skipped if a destination value exists".) -/
def merge (object source : JSObj) : JSObj :=
  source.foldl (fun o p => assignMergeValue o p.1 p.2) object

/-- The call `merge( object, source )` made only for its effect on `object`, where either
argument may be `undefined`: an `undefined` destination stays `undefined` (lodash merges into a
fresh object that is dropped), an `undefined` source is skipped. -/
def mergeInto (object source : Option JSObj) : Option JSObj :=
  match object, source with
  | none, _ => none
  | some o, none => some o
  | some o, some src => some (merge o src)

/-! ## Pages and responses -/

/-- The attributes read from an element matched by `form input[type=hidden]`
(`el.attribs.name`, `el.attribs.value`). -/
structure HiddenInput where
  name : Option JSString
  value : Option JSString
  deriving DecidableEq

/-- The element names the selector `form#postmodify input, form#postmodify textarea` yields. -/
inductive Tag
  | input
  | textarea
  deriving DecidableEq

/-- What the scrape loop reads from one element: `el[0].name`, `el.attr("type")`,
`el.attr("name")`, `el.attr("checked")` and `el.val()`. -/
structure FormElement where
  tagName : Tag
  type : Option JSString
  name : Option JSString
  checked : Option JSString
  val : Option JSString
  deriving DecidableEq

/-- A response body, given by the results of the queries the script runs on it. -/
structure Page where
  /-- The elements matched by `form input[type=hidden]`, in document order. -/
  hiddenInputs : List HiddenInput
  /-- The text of `#name em`. -/
  userText : JSString
  /-- The attribute `action` of `form#postmodify`. -/
  postAction : Option JSString
  /-- The elements matched by `form#postmodify input, form#postmodify textarea`. -/
  postFields : List FormElement
  deriving DecidableEq

/-- A needle response: parsed body and cookies (`undefined` when the response sets none). -/
structure Response where
  body : Page
  cookies : Option JSObj
  deriving DecidableEq

/-- The exceptions that can arise. -/
inductive JSError
  /-- A property read on `undefined`. -/
  | typeError
  /-- A rejected needle call. -/
  | network
  /-- The error made by `new Error( "Authentication failed!" )`. -/
  | authenticationFailed
  deriving DecidableEq

/-! ## `getXssInput` and `getSessionInfo` (index.js 50-66) -/

/-- The token record `{ name, value }`. -/
structure Xss where
  name : Option JSString
  value : Option JSString
  deriving DecidableEq

/-- The filter callback `(i, el) => el.attribs.value.length == 32`: reading `.length` of a
missing attribute throws. -/
def valueLengthIs32 (el : HiddenInput) : Except JSError Bool :=
  match el.value with
  | none => Except.error JSError.typeError
  | some v => Except.ok (v.length == 32)

/-- The call `.filter( callback )` on the matched elements, in document order. -/
def filterXss : List HiddenInput → Except JSError (List HiddenInput)
  | [] => Except.ok []
  | el :: rest =>
    match valueLengthIs32 el with
    | Except.error e => Except.error e
    | Except.ok keep =>
      match filterXss rest with
      | Except.error e => Except.error e
      | Except.ok kept => Except.ok (if keep then el :: kept else kept)

/-- The function `getXssInput( response )`: `.attr("name")` and `.val()` read the first
element of the filtered set and give `undefined` on an empty set. -/
def getXssInput (response : Response) : Except JSError Xss :=
  match filterXss response.body.hiddenInputs with
  | Except.error e => Except.error e
  | Except.ok xssElement =>
    Except.ok
      { name := xssElement.head?.bind HiddenInput.name
        value := xssElement.head?.bind HiddenInput.value }

/-- The session object `{ xss, cookies }`, with `user` added by `login`. -/
structure Session where
  xss : Xss
  cookies : Option JSObj
  user : Option JSString
  deriving DecidableEq

/-- The function `getSessionInfo( response )`. -/
def getSessionInfo (response : Response) : Except JSError Session :=
  match getXssInput response with
  | Except.error e => Except.error e
  | Except.ok xss => Except.ok { xss := xss, cookies := response.cookies, user := none }

/-! ## The network -/

/-- The outcome of each needle call the script can make. -/
structure Net where
  /-- The call `needle( 'get', FORUM )`. -/
  getForum : Except JSError Response
  /-- The call `needle( 'post', FORUM_LOGIN_ACTION, form_data, ... )`. -/
  postLogin : JSObj → Except JSError Response
  /-- The call `needle( 'get', getEditFormUrl( msg, topic ), ... )`. -/
  getEditForm : Nat → JSString → Except JSError Response
  /-- The call `needle( 'post', post_action, form_data, ... )`. -/
  postUpdate : Option JSString → JSObj → Except JSError Response

/-- A network call that was issued. -/
inductive Event
  | getForum
  | postLogin (form_data : JSObj)
  | getEditForm (msg : Nat) (topic : JSString)
  | postUpdate (post_action : Option JSString) (form_data : JSObj)
  deriving DecidableEq

/-- Whether an event is the edit-form fetch, the first thing `doUpdate` does. -/
def Event.isGetEditForm : Event → Bool
  | Event.getEditForm _ _ => true
  | _ => false

/-! ## `login` (index.js 68-86) -/

/-- The object `form_data` that `login` posts. -/
def loginFormData (sha1 : JSString → JSString) (session : Session)
    (username password : JSString) : JSObj :=
  let form_data : JSObj :=
    [(lit "user", JSVal.str username), (lit "cookielength", JSVal.num (-1)),
      (lit "hash_passwrd",
        JSVal.str (hashPassword sha1 username password (jsToString session.xss.value)))]
  assignField form_data (jsToString session.xss.name) session.xss.value

/-- The function `login( session, username, password )`, with the calls it issued. -/
def login (sha1 : JSString → JSString) (net : Net) (session : Session)
    (username password : JSString) : Except JSError Session × List Event :=
  let form_data := loginFormData sha1 session username password
  match net.postLogin form_data with
  | Except.error e => (Except.error e, [Event.postLogin form_data])
  | Except.ok login =>
    let user := login.body.userText
    if user = lit "Guest" then
      (Except.error JSError.authenticationFailed, [Event.postLogin form_data])
    else
      (Except.ok
          { session with
            cookies := mergeInto session.cookies login.cookies, user := some user },
        [Event.postLogin form_data])

/-! ## `doUpdate` (index.js 88-123) -/

/-- The body of the `.each` callback: the two `if` statements, one after the other. -/
def scrapeStep (form_data : JSObj) (el : FormElement) : JSObj :=
  let form_data :=
    if (el.tagName = Tag.input ∨ el.tagName = Tag.textarea) ∧
        el.type ≠ some (lit "checkbox") ∧ el.type ≠ some (lit "submit") then
      assignField form_data (jsToString el.name) el.val
    else form_data
  if el.type = some (lit "checkbox") ∧ el.checked = some (lit "checked") then
    assignField form_data (jsToString el.name) el.val
  else form_data

/-- The scrape loop, from `form_data = {}` over the elements in document order. -/
def scrapeForm (els : List FormElement) : JSObj := els.foldl scrapeStep []

/-- The function `doUpdate( session, msg, topic, contents )`, with the calls it issued. The
function returns nothing; the value given here is the session as it leaves it. -/
def doUpdate (net : Net) (session : Session) (msg : Nat) (topic : JSString)
    (contents : JSObj) : Except JSError Session × List Event :=
  match net.getEditForm msg topic with
  | Except.error e => (Except.error e, [Event.getEditForm msg topic])
  | Except.ok edit_page =>
    let cookies := mergeInto session.cookies edit_page.cookies
    match getXssInput edit_page with
    | Except.error e => (Except.error e, [Event.getEditForm msg topic])
    | Except.ok xss =>
      let post_action := edit_page.body.postAction
      let form_data := merge (scrapeForm edit_page.body.postFields) contents
      match net.postUpdate post_action form_data with
      | Except.error e =>
        (Except.error e, [Event.getEditForm msg topic, Event.postUpdate post_action form_data])
      | Except.ok _ =>
        (Except.ok { session with cookies := cookies, xss := xss },
          [Event.getEditForm msg topic, Event.postUpdate post_action form_data])

/-! ## `Update` (index.js 33-47) -/

/-- What a call of `Update` amounts to. -/
structure UpdateRun where
  /-- The boolean the promise returned by `Update` resolves to. -/
  result : Bool
  /-- The network calls issued, in order. -/
  events : List Event
  /-- The outcome of the promise made by `doUpdate( ... )`, when that call was reached.
  `Update` does not await it, so a rejection never enters the `catch` block. -/
  background : Option (Except JSError Session)

/-- The function `Update( username, password, msg, topic, contents )`. -/
def Update (sha1 : JSString → JSString) (net : Net) (username password : JSString) (msg : Nat)
    (topic : JSString) (contents : JSObj) : UpdateRun :=
  match net.getForum with
  | Except.error _ => { result := false, events := [Event.getForum], background := none }
  | Except.ok login_form =>
    match getSessionInfo login_form with
    | Except.error _ => { result := false, events := [Event.getForum], background := none }
    | Except.ok session =>
      match login sha1 net session username password with
      | (Except.error _, evs) =>
        { result := false, events := Event.getForum :: evs, background := none }
      | (Except.ok session, evs) =>
        let update := doUpdate net session msg topic contents
        { result := true, events := Event.getForum :: (evs ++ update.2),
          background := some update.1 }

/-! ## Reference predicates for the form scrape -/

/-- The key under which the scrape loop stores an element: `el.attr("name")` as a property
key. -/
def fieldKey (el : FormElement) : JSString := jsToString el.name

/-- Specification side: the elements said to be recorded, namely (a) every textarea, (b) every
input whose type is neither checkbox nor submit, (c) every checkbox that is checked. -/
def ClaimedRecorded (el : FormElement) : Prop :=
  el.tagName = Tag.textarea ∨
    (el.tagName = Tag.input ∧ el.type ≠ some (lit "checkbox") ∧ el.type ≠ some (lit "submit")) ∨
    (el.type = some (lit "checkbox") ∧ el.checked = some (lit "checked"))

instance (el : FormElement) : Decidable (ClaimedRecorded el) := by
  unfold ClaimedRecorded
  infer_instance

/-- Specification side, amended: an element, textarea or input alike, is recorded when its type
attribute is neither `checkbox` nor `submit`, or when its type attribute is `checkbox` and its
`checked` attribute reads `checked`. -/
def Recorded (el : FormElement) : Prop :=
  (el.type ≠ some (lit "checkbox") ∧ el.type ≠ some (lit "submit")) ∨
    (el.type = some (lit "checkbox") ∧ el.checked = some (lit "checked"))

instance (el : FormElement) : Decidable (Recorded el) := by
  unfold Recorded
  infer_instance

/-- An element is stored by the scrape loop when it is recorded and its name is not
`__proto__`. -/
def Stored (el : FormElement) : Prop := Recorded el ∧ fieldKey el ≠ lit "__proto__"

/-- Specification side: a hidden input with a value of length exactly 32. -/
def hasTokenLength (el : HiddenInput) : Bool :=
  match el.value with
  | some v => v.length == 32
  | none => false

/-! ## Sample inputs -/

/-- A scraped field map with one field. -/
def sampleFields : JSObj := [(lit "message", JSVal.str (lit "old body"))]

/-- The override map `{ message: "new body", lock: 1 }`. -/
def sampleOverride : JSObj :=
  [(lit "message", JSVal.str (lit "new body")), (lit "lock", JSVal.num 1)]

/-- The override map `{ message: undefined }`. -/
def sampleOverrideUndefined : JSObj := [(lit "message", JSVal.undefined)]

/-- The override map `{ constructor: undefined }`. -/
def sampleOverrideConstructor : JSObj := [(lit "constructor", JSVal.undefined)]

/-- The element `<input type="text" name="__proto__" value="x">`. -/
def sampleProtoInput : FormElement :=
  { tagName := Tag.input, type := some (lit "text"), name := some (lit "__proto__"),
    checked := none, val := some (lit "x") }

/-- The element `<textarea type="submit" name="note">text</textarea>`. -/
def sampleTypedTextarea : FormElement :=
  { tagName := Tag.textarea, type := some (lit "submit"), name := some (lit "note"),
    checked := none, val := some (lit "text") }

/-- A form with a textarea, a text input, a checked and an unchecked checkbox and a submit
button. -/
def sampleForm : List FormElement :=
  [{ tagName := Tag.textarea, type := none, name := some (lit "message"), checked := none,
      val := some (lit "old body") },
    { tagName := Tag.input, type := some (lit "text"), name := some (lit "subject"),
      checked := none, val := some (lit "title") },
    { tagName := Tag.input, type := some (lit "checkbox"), name := some (lit "lock"),
      checked := some (lit "checked"), val := some (lit "1") },
    { tagName := Tag.input, type := some (lit "checkbox"), name := some (lit "notify"),
      checked := none, val := some (lit "1") },
    { tagName := Tag.input, type := some (lit "submit"), name := some (lit "post"),
      checked := none, val := some (lit "Save") }]

/-- A token value of 32 characters. -/
def sampleToken : JSString := lit "0123456789abcdef0123456789abcdef"

/-- The element `<input type="hidden" name="b7f3a" value="0123...cdef">`. -/
def sampleTokenInput : HiddenInput := { name := some (lit "b7f3a"), value := some sampleToken }

/-- The element `<input type="hidden" name="sc">`, which has no value attribute. -/
def sampleValuelessInput : HiddenInput := { name := some (lit "sc"), value := none }

/-- The element `<input type="hidden" name="topic" value="45557">`. -/
def sampleShortInput : HiddenInput :=
  { name := some (lit "topic"), value := some (lit "45557") }

/-- A response whose page has the given hidden inputs and user text, and no edit form. -/
def pageOf (hidden : List HiddenInput) (user : JSString) : Response :=
  { body := { hiddenInputs := hidden, userText := user, postAction := none, postFields := [] }
    cookies := some [(lit "PHPSESSID", JSVal.str (lit "5f2c"))] }

/-- The session read from `pageOf [sampleTokenInput] user`. -/
def sampleSession : Session :=
  { xss := { name := some (lit "b7f3a"), value := some sampleToken }
    cookies := some [(lit "PHPSESSID", JSVal.str (lit "5f2c"))]
    user := none }

/-- A forum on which the login works and the edit-form fetch fails. -/
def netEditFetchFails : Net :=
  { getForum := Except.ok (pageOf [sampleTokenInput] (lit "Guest"))
    postLogin := fun _ => Except.ok (pageOf [sampleTokenInput] (lit "me"))
    getEditForm := fun _ _ => Except.error JSError.network
    postUpdate := fun _ _ => Except.error JSError.network }

/-- An edit page: a token, the form `postmodify` with its action and the fields of
`sampleForm`. -/
def sampleEditPage : Response :=
  { body :=
      { hiddenInputs := [sampleTokenInput], userText := lit "me",
        postAction := some (lit "https://ludeon.com/forums/index.php?action=post2"),
        postFields := sampleForm }
    cookies := none }

/-- A forum on which the login and the edit-form fetch work and the submission fails. -/
def netSubmitFails : Net :=
  { getForum := Except.ok (pageOf [sampleTokenInput] (lit "Guest"))
    postLogin := fun _ => Except.ok (pageOf [sampleTokenInput] (lit "me"))
    getEditForm := fun _ _ => Except.ok sampleEditPage
    postUpdate := fun _ _ => Except.error JSError.network }

/-- A forum that answers the login with a page still showing `Guest`. -/
def netGuest : Net :=
  { getForum := Except.ok (pageOf [sampleTokenInput] (lit "Guest"))
    postLogin := fun _ => Except.ok (pageOf [sampleTokenInput] (lit "Guest"))
    getEditForm := fun _ _ => Except.ok (pageOf [sampleTokenInput] (lit "Guest"))
    postUpdate := fun _ _ => Except.ok (pageOf [sampleTokenInput] (lit "Guest")) }


/-- A stand-in for the digest parameter in closed examples; no property below depends on what
the digest computes. -/
def sampleDigest : JSString → JSString := fun s => fromCharCode s.length :: s

/-- The call `Update( 'me', 'secret', 433374, '45557.0', { message: "new body", lock: 1 } )`
against a given forum. -/
def sampleUpdate (net : Net) : UpdateRun :=
  Update sampleDigest net (lit "me") (lit "secret") 433374 (lit "45557.0") sampleOverride

/-! ## Properties of `to8bit` -/

theorem to8bit_foldl (s acc : JSString) :
    s.foldl to8bitStep acc =
      acc ++ s.flatMap (fun c => to8bitEmit (to8bitBranch c.val) c.val) := by
  induction s generalizing acc with
  | nil => simp
  | cons c s ih => simp [ih, to8bitStep, List.append_assoc]

theorem to8bit_eq_flatMap (s : JSString) :
    to8bit s = s.flatMap (fun c => to8bitEmit (to8bitBranch c.val) c.val) := by
  simpa [to8bit] using to8bit_foldl s []

theorem to8bit_cons (c : CodeUnit) (s : JSString) :
    to8bit (c :: s) = to8bitEmit (to8bitBranch c.val) c.val ++ to8bit s := by
  simp [to8bit_eq_flatMap]

theorem to8bit_nil : to8bit [] = [] := rfl

theorem fromCharCode_val {n : Nat} (h : n < 65536) : (fromCharCode n).val = n :=
  Nat.mod_eq_of_lt h

theorem fromCharCode_self (c : CodeUnit) : fromCharCode c.val = c :=
  Fin.ext (Nat.mod_eq_of_lt c.isLt)

theorem to8bitBranch_ne_four (c : CodeUnit) : to8bitBranch c.val ≠ Branch.four := by
  have h := c.isLt
  unfold to8bitBranch
  split_ifs <;> simp

theorem continuation_lt (x : Nat) : 128 ||| (x &&& 63) < 256 := by
  have h : x &&& 63 < 2 ^ 8 := Nat.and_lt_two_pow x (by norm_num)
  exact Nat.or_lt_two_pow (by norm_num) h

theorem lead2_lt {n : Nat} (h : n < 2048) : 192 ||| (n >>> 6) < 256 := by
  have h1 : n >>> 6 < 2 ^ 8 := by
    rw [Nat.shiftRight_eq_div_pow]
    omega
  exact Nat.or_lt_two_pow (by norm_num) h1

theorem lead3_lt {n : Nat} (h : n < 65536) : 224 ||| (n >>> 12) < 256 := by
  have h1 : n >>> 12 < 2 ^ 8 := by
    rw [Nat.shiftRight_eq_div_pow]
    omega
  exact Nat.or_lt_two_pow (by norm_num) h1

/-- The numbers emitted for one code unit are the UTF-8 layout of its value. -/
theorem to8bitEmit_val (c : CodeUnit) :
    (to8bitEmit (to8bitBranch c.val) c.val).map Fin.val = utf8Layout c.val := by
  have hc := c.isLt
  unfold to8bitBranch utf8Layout
  split_ifs with h1 h2
  · simp [to8bitEmit, fromCharCode_val hc]
  · have a := lead2_lt h2
    have b := continuation_lt c.val
    simp [to8bitEmit, fromCharCode_val (show 192 ||| (c.val >>> 6) < 65536 by omega),
      fromCharCode_val (show 128 ||| (c.val &&& 63) < 65536 by omega)]
  · have a := lead3_lt hc
    have b := continuation_lt c.val
    have d := continuation_lt (c.val >>> 6)
    simp [to8bitEmit, fromCharCode_val (show 224 ||| (c.val >>> 12) < 65536 by omega),
      fromCharCode_val (show 128 ||| (c.val &&& 63) < 65536 by omega),
      fromCharCode_val (show 128 ||| ((c.val >>> 6) &&& 63) < 65536 by omega)]

theorem utf8Layout_lt_256 {n : Nat} (hn : n < 65536) : ∀ b ∈ utf8Layout n, b < 256 := by
  intro b hb
  unfold utf8Layout at hb
  have k := continuation_lt n
  have k6 := continuation_lt (n >>> 6)
  split_ifs at hb with h1 h2
  · simp at hb
    omega
  · have a := lead2_lt h2
    simp at hb
    rcases hb with rfl | rfl <;> assumption
  · have a := lead3_lt hn
    simp at hb
    rcases hb with rfl | rfl | rfl <;> assumption

theorem to8bit_val (s : JSString) :
    (to8bit s).map Fin.val = s.flatMap (fun c => utf8Layout c.val) := by
  rw [to8bit_eq_flatMap, List.map_flatMap]
  congr 1
  funext c
  exact to8bitEmit_val c

/-- Every code unit of an output of `to8bit` is below 256. -/
theorem to8bit_lt_256 (s : JSString) : ∀ c ∈ to8bit s, c.val < 256 := by
  intro c hc
  have h : c.val ∈ (to8bit s).map Fin.val := List.mem_map_of_mem _ hc
  rw [to8bit_val, List.mem_flatMap] at h
  obtain ⟨d, _, hd⟩ := h
  exact utf8Layout_lt_256 d.isLt _ hd

theorem to8bit_ascii (s : JSString) (h : IsAscii s) : to8bit s = s := by
  induction s with
  | nil => rfl
  | cons c s ih =>
    have hc : c.val < 128 := h c (List.mem_cons_self _ _)
    have hs : IsAscii s := fun d hd => h d (List.mem_cons_of_mem _ hd)
    rw [to8bit_cons, ih hs]
    simp [to8bitBranch, hc, to8bitEmit, fromCharCode_self]

theorem to8bitEmit_length (c : CodeUnit) :
    1 ≤ (to8bitEmit (to8bitBranch c.val) c.val).length ∧
      (to8bitEmit (to8bitBranch c.val) c.val).length ≤ 3 := by
  have hc := c.isLt
  unfold to8bitBranch
  split_ifs <;> simp [to8bitEmit]

theorem to8bit_length_bounds (s : JSString) :
    s.length ≤ (to8bit s).length ∧ (to8bit s).length ≤ 3 * s.length := by
  induction s with
  | nil => simp [to8bit_nil]
  | cons c s ih =>
    have h := to8bitEmit_length c
    rw [to8bit_cons, List.length_append, List.length_cons]
    omega

theorem toLowerCase_ascii (s : JSString) (h : IsAscii s) :
    toLowerCase s = asciiLowercase s := by
  unfold toLowerCase asciiLowercase
  apply List.map_congr_left
  intro c hc
  have := h c hc
  unfold lowerUnit
  by_cases hu : 65 ≤ c.val ∧ c.val ≤ 90
  · rw [if_pos (Or.inl hu), if_pos hu]
  · have hn : ¬ ((65 ≤ c.val ∧ c.val ≤ 90) ∨ (192 ≤ c.val ∧ c.val ≤ 222 ∧ c.val ≠ 215)) := by
      omega
    rw [if_neg hn, if_neg hu]

/-- C2. `to8bit` is the identity on all-ASCII input: a string whose code units are all below
128 is returned as it is, with the same length and the same code unit at every index. -/
theorem C2_to8bit_ascii_identity (s : JSString) (h : IsAscii s) :
    to8bit s = s ∧ (to8bit s).length = s.length ∧ ∀ i : Nat, (to8bit s)[i]? = s[i]? := by
  have e := to8bit_ascii s h
  rw [e]
  simp

theorem C2_to8bit_ascii_identity_witness :
    IsAscii (lit "my_password") ∧
      (to8bit (lit "my_password") = lit "my_password" ∧
        (to8bit (lit "my_password")).length = (lit "my_password").length ∧
        ∀ i : Nat, (to8bit (lit "my_password"))[i]? = (lit "my_password")[i]?) :=
  ⟨by decide, C2_to8bit_ascii_identity (lit "my_password") (by decide)⟩


/-- C1. For a username and a password made of ASCII characters only and every token string
`t`, `hashPassword` is the reference double hash
`sha1 (sha1 (asciiLowercase username ++ password) ++ t)`, with no `to8bit` re-encoding. -/
theorem C1_hashPassword_ascii (sha1 : JSString → JSString) (username password t : JSString)
    (hu : IsAscii username) (hp : IsAscii password) :
    hashPassword sha1 username password t =
      sha1 (sha1 (asciiLowercase username ++ password) ++ t) := by
  unfold hashPassword
  rw [to8bit_ascii username hu, to8bit_ascii password hp, toLowerCase_ascii username hu]

theorem C1_hashPassword_ascii_witness :
    IsAscii (lit "me") ∧ IsAscii (lit "secret") ∧
      hashPassword sampleDigest (lit "me") (lit "secret")
          (lit "0123456789abcdef0123456789abcde") =
        sampleDigest (sampleDigest (asciiLowercase (lit "me") ++ lit "secret") ++
          lit "0123456789abcdef0123456789abcde") :=
  ⟨by decide, by decide,
    C1_hashPassword_ascii sampleDigest (lit "me") (lit "secret")
      (lit "0123456789abcdef0123456789abcde") (by decide) (by decide)⟩

/-- C3. For every string `s`, `to8bit s` is the concatenation, over the code units `n` of `s`
in order, of the UTF-8 bit layout of `n`, one character per byte: two characters
`[192 | n>>6, 128 | (n & 63)]` for `128 ≤ n < 2048`, three characters
`[224 | n>>12, 128 | ((n>>6) & 63), 128 | (n & 63)]` for `2048 ≤ n < 65536`, and every character
of the result has a code below 256. -/
theorem C3_to8bit_utf8_layout (s : JSString) :
    (to8bit s).map Fin.val = s.flatMap (fun c => utf8Layout c.val) ∧
      (∀ c : CodeUnit, 128 ≤ c.val → c.val < 2048 →
        (to8bit [c]).map Fin.val = [192 ||| (c.val >>> 6), 128 ||| (c.val &&& 63)]) ∧
      (∀ c : CodeUnit, 2048 ≤ c.val →
        (to8bit [c]).map Fin.val =
          [224 ||| (c.val >>> 12), 128 ||| ((c.val >>> 6) &&& 63), 128 ||| (c.val &&& 63)]) ∧
      ∀ c ∈ to8bit s, c.val < 256 := by
  refine ⟨to8bit_val s, ?_, ?_, to8bit_lt_256 s⟩
  · intro c h1 h2
    have h : ¬ c.val < 128 := by omega
    rw [to8bit_val]
    simp [utf8Layout, h, h2]
  · intro c h1
    have h : ¬ c.val < 128 := by omega
    have h' : ¬ c.val < 2048 := by omega
    rw [to8bit_val]
    simp [utf8Layout, h, h']

theorem C3_to8bit_utf8_layout_witness :
    (to8bit [fromCharCode 233]).map Fin.val = [195, 169] ∧
      (to8bit [fromCharCode 8364]).map Fin.val = [226, 130, 172] ∧
      (to8bit [fromCharCode 233, fromCharCode 8364]).map Fin.val = [195, 169, 226, 130, 172] :=
  ⟨((C3_to8bit_utf8_layout []).2.1 (fromCharCode 233) (by decide) (by decide)).trans
      (by decide),
    ((C3_to8bit_utf8_layout []).2.2.1 (fromCharCode 8364) (by decide)).trans (by decide),
    (C3_to8bit_utf8_layout [fromCharCode 233, fromCharCode 8364]).1.trans (by decide)⟩

/-- C10. For every string `s` the fourth, four-character arm of `to8bit` is never taken, since a
code unit is below 65536; hence `length s ≤ length (to8bit s) ≤ 3 * length s`, and a
supplementary character stored as a surrogate pair yields six characters, not the four bytes
of its UTF-8 encoding. -/
theorem C10_to8bit_fourth_branch_dead (s : JSString) :
    (∀ c ∈ s, to8bitBranch c.val ≠ Branch.four) ∧
      s.length ≤ (to8bit s).length ∧ (to8bit s).length ≤ 3 * s.length ∧
      ∀ hi lo : CodeUnit, IsSurrogatePair hi lo →
        (to8bit [hi, lo]).length = 6 ∧ utf8ByteCount (pairCodePoint hi lo) = 4 := by
  refine ⟨fun c _ => to8bitBranch_ne_four c, (to8bit_length_bounds s).1,
    (to8bit_length_bounds s).2, ?_⟩
  rintro hi lo ⟨h1, h2, h3, h4⟩
  have a := hi.isLt
  have b := lo.isLt
  constructor
  · have e1 : to8bitBranch hi.val = Branch.three := by
      unfold to8bitBranch
      rw [if_neg (by omega), if_neg (by omega), if_pos a]
    have e2 : to8bitBranch lo.val = Branch.three := by
      unfold to8bitBranch
      rw [if_neg (by omega), if_neg (by omega), if_pos b]
    rw [to8bit_cons, to8bit_cons, to8bit_nil, e1, e2]
    simp [to8bitEmit]
  · unfold utf8ByteCount pairCodePoint
    rw [if_neg (by omega), if_neg (by omega), if_neg (by omega)]

theorem C10_to8bit_fourth_branch_dead_witness :
    IsSurrogatePair (fromCharCode 55357) (fromCharCode 56832) ∧
      (to8bit [fromCharCode 55357, fromCharCode 56832]).length = 6 ∧
      utf8ByteCount (pairCodePoint (fromCharCode 55357) (fromCharCode 56832)) = 4 :=
  ⟨by decide,
    (C10_to8bit_fourth_branch_dead []).2.2.2 (fromCharCode 55357) (fromCharCode 56832)
      (by decide)⟩

/-! ## Properties of plain objects and of `merge` -/

theorem getProp_setProp_same (o : JSObj) (k : JSString) (v : JSVal) :
    getProp (setProp o k v) k = some v := by
  induction o with
  | nil => simp [setProp, getProp]
  | cons p o ih =>
    obtain ⟨k', v'⟩ := p
    by_cases h : k' = k
    · simp [setProp, getProp, h]
    · simp [setProp, getProp, h, ih]

theorem getProp_setProp_ne (o : JSObj) {k j : JSString} (v : JSVal) (h : j ≠ k) :
    getProp (setProp o k v) j = getProp o j := by
  induction o with
  | nil => simp [setProp, getProp, Ne.symm h]
  | cons p o ih =>
    obtain ⟨k', v'⟩ := p
    by_cases h1 : k' = k
    · subst h1
      simp [setProp, getProp, Ne.symm h]
    · by_cases h2 : k' = j
      · subst h2
        simp [setProp, getProp, h1]
      · simp [setProp, getProp, h1, h2, ih]

theorem getProp_eq_none_iff (o : JSObj) (k : JSString) :
    getProp o k = none ↔ k ∉ keysOf o := by
  induction o with
  | nil => simp [getProp, keysOf]
  | cons p o ih =>
    obtain ⟨k', v'⟩ := p
    by_cases h : k' = k
    · simp [getProp, keysOf, h]
    · have h' : ¬ k = k' := fun e => h e.symm
      simpa [getProp, keysOf, h, h'] using ih

theorem getProp_assignMergeValue_ne (o : JSObj) {key j : JSString} (v : JSVal) (h : j ≠ key) :
    getProp (assignMergeValue o key v) j = getProp o j := by
  unfold assignMergeValue baseAssignValue
  split_ifs
  · exact getProp_setProp_ne o v h
  · rfl

theorem inObject_assignMergeValue_ne (o : JSObj) {key j : JSString} (v : JSVal) (h : j ≠ key) :
    inObject (assignMergeValue o key v) j = inObject o j := by
  unfold inObject
  rw [getProp_assignMergeValue_ne o v h]

theorem eqRead_congr {o o' : JSObj} {k : JSString} (v : JSVal)
    (h : getProp o k = getProp o' k) : eqRead o k v = eqRead o' k v := by
  unfold eqRead
  rw [h]

theorem getProp_assignMergeValue_same (o : JSObj) (k : JSString) (v : JSVal) :
    getProp (assignMergeValue o k v) k =
      if (v ≠ JSVal.undefined ∧ eqRead o k v = false) ∨
          (v = JSVal.undefined ∧ inObject o k = false) then some v
      else getProp o k := by
  unfold assignMergeValue baseAssignValue
  split_ifs
  · exact getProp_setProp_same o k v
  · rfl

/-- A defined source value ends up as an own property of the destination. -/
theorem getProp_assignMergeValue_defined (o : JSObj) (key : JSString) {v : JSVal}
    (hv : v ≠ JSVal.undefined) : getProp (assignMergeValue o key v) key = some v := by
  unfold assignMergeValue baseAssignValue
  split_ifs with h
  · exact getProp_setProp_same o key v
  · have h1 : eqRead o key v = true := by
      by_contra hne
      exact h (Or.inl ⟨hv, by simpa using hne⟩)
    unfold eqRead at h1
    cases hg : getProp o key with
    | none =>
      rw [hg] at h1
      by_cases hin : key ∈ inheritedNames
      · simp [hin] at h1
      · simp [hin, hv] at h1
    | some w =>
      rw [hg] at h1
      simpa using h1

/-- An `undefined` source value changes nothing when `key in object` holds. -/
theorem assignMergeValue_undefined_of_in (o : JSObj) (key : JSString)
    (h : inObject o key = true) : assignMergeValue o key JSVal.undefined = o := by
  unfold assignMergeValue
  rw [if_neg]
  rintro (⟨h1, _⟩ | ⟨_, h2⟩)
  · exact h1 rfl
  · rw [h] at h2
    exact Bool.noConfusion h2

/-- An `undefined` source value makes the own property when `key in object` fails. -/
theorem getProp_assignMergeValue_undefined_of_not_in (o : JSObj) (key : JSString)
    (h : inObject o key = false) :
    getProp (assignMergeValue o key JSVal.undefined) key = some JSVal.undefined := by
  unfold assignMergeValue baseAssignValue
  rw [if_pos (Or.inr ⟨rfl, h⟩)]
  exact getProp_setProp_same o key _

theorem merge_nil (m : JSObj) : merge m [] = m := rfl

theorem merge_cons (m : JSObj) (k : JSString) (v : JSVal) (c : JSObj) :
    merge m ((k, v) :: c) = merge (assignMergeValue m k v) c := rfl

theorem getProp_merge_of_not_mem (m c : JSObj) (k : JSString) (h : getProp c k = none) :
    getProp (merge m c) k = getProp m k := by
  induction c generalizing m with
  | nil => rfl
  | cons p c ih =>
    obtain ⟨k', v'⟩ := p
    have hk : k' ≠ k := by
      intro e
      simp [getProp, e] at h
    have hc : getProp c k = none := by
      simpa [getProp, hk] using h
    rw [merge_cons, ih _ hc, getProp_assignMergeValue_ne m v' (Ne.symm hk)]

/-- What `merge` leaves at a key of the source: the outcome of the one `assignMergeValue` call
made for that key. -/
theorem getProp_merge_of_mem (m c : JSObj) (hc : WellFormed c) (k : JSString) (v : JSVal)
    (h : getProp c k = some v) :
    getProp (merge m c) k = getProp (assignMergeValue m k v) k := by
  induction c generalizing m with
  | nil => simp [getProp] at h
  | cons p c ih =>
    obtain ⟨k', v'⟩ := p
    have hnd : k' ∉ keysOf c ∧ (keysOf c).Nodup := by
      simpa [WellFormed, keysOf] using hc
    rw [merge_cons]
    by_cases hk : k' = k
    · subst hk
      have e : v' = v := by
        simpa [getProp] using h
      subst e
      exact getProp_merge_of_not_mem _ c k' ((getProp_eq_none_iff c k').2 hnd.1)
    · have h' : getProp c k = some v := by
        simpa [getProp, hk] using h
      rw [ih _ hnd.2 h']
      have e1 := getProp_assignMergeValue_ne m v' (Ne.symm hk)
      have e2 := inObject_assignMergeValue_ne m v' (Ne.symm hk)
      rw [getProp_assignMergeValue_same, getProp_assignMergeValue_same, eqRead_congr v e1, e2,
        e1]

/-- C7, refuted as stated. With the scraped map `{ message: "old body" }` and the override map
`{ message: undefined }`, `message` is a key of the override map, yet the merged map keeps
`"old body"` and not the override's value. With the override map `{ constructor: undefined }`,
`constructor` is a key of the override map, yet the merged map has no such key. -/
theorem C7_counterexample :
    (getProp sampleOverrideUndefined (lit "message") = some JSVal.undefined ∧
        getProp (merge sampleFields sampleOverrideUndefined) (lit "message") =
          some (JSVal.str (lit "old body"))) ∧
      (getProp sampleOverrideConstructor (lit "constructor") = some JSVal.undefined ∧
        getProp (merge sampleFields sampleOverrideConstructor) (lit "constructor") = none) := by
  decide

/-- C7, amended. For every scraped map `m` and override map `c`: the merged map has the own
property `k` with value `c[k]` for every key `k` of `c` whose value is not `undefined`; a key
`k` of `c` whose value is `undefined` changes nothing when `k in m` holds (`m[k]` is kept when
`k` is a key of `m`, and no key is added when `k` is only a name inherited from
`Object.prototype`, such as `constructor`) and is added with value `undefined` otherwise; every
key of `m` that is not a key of `c` keeps `m[k]`; there are no other keys; and merging with the
empty override map gives back `m`. -/
theorem C7_merge_overlay (m c : JSObj) (hc : WellFormed c) :
    (∀ k v, getProp c k = some v → v ≠ JSVal.undefined → getProp (merge m c) k = some v) ∧
      (∀ k, getProp c k = some JSVal.undefined → inObject m k = true →
        getProp (merge m c) k = getProp m k) ∧
      (∀ k, getProp c k = some JSVal.undefined → inObject m k = false →
        getProp (merge m c) k = some JSVal.undefined) ∧
      (∀ k, getProp c k = none → getProp (merge m c) k = getProp m k) ∧
      (∀ k, (getProp (merge m c) k).isSome = true →
        (getProp m k).isSome = true ∨ (getProp c k).isSome = true) ∧
      merge m [] = m := by
  refine ⟨?_, ?_, ?_, ?_, ?_, merge_nil m⟩
  · intro k v hk hv
    rw [getProp_merge_of_mem m c hc k v hk]
    exact getProp_assignMergeValue_defined m k hv
  · intro k hk hm
    rw [getProp_merge_of_mem m c hc k _ hk, assignMergeValue_undefined_of_in m k hm]
  · intro k hk hm
    rw [getProp_merge_of_mem m c hc k _ hk]
    exact getProp_assignMergeValue_undefined_of_not_in m k hm
  · intro k hk
    exact getProp_merge_of_not_mem m c k hk
  · intro k hk
    cases hg : getProp c k with
    | some w => exact Or.inr rfl
    | none =>
      left
      rw [getProp_merge_of_not_mem m c k hg] at hk
      exact hk

theorem C7_merge_overlay_witness :
    WellFormed sampleOverride ∧
      getProp (merge sampleFields sampleOverride) (lit "message") =
        some (JSVal.str (lit "new body")) ∧
      getProp (merge sampleFields sampleOverride) (lit "lock") = some (JSVal.num 1) ∧
      merge sampleFields [] = sampleFields :=
  have hc : WellFormed sampleOverride := by
    unfold WellFormed
    decide
  ⟨hc,
    (C7_merge_overlay sampleFields sampleOverride hc).1 (lit "message")
      (JSVal.str (lit "new body")) (by decide) (by decide),
    (C7_merge_overlay sampleFields sampleOverride hc).1 (lit "lock") (JSVal.num 1) (by decide)
      (by decide),
    (C7_merge_overlay sampleFields sampleOverride hc).2.2.2.2.2⟩

/-! ## Properties of the form scrape -/

theorem getProp_assignField_ne (o : JSObj) {k j : JSString} (v : Option JSString)
    (h : j ≠ k) : getProp (assignField o k v) j = getProp o j := by
  unfold assignField
  split_ifs
  · rfl
  · exact getProp_setProp_ne o _ h

theorem getProp_assignField_same (o : JSObj) {k : JSString} (v : Option JSString)
    (h : k ≠ lit "__proto__") : getProp (assignField o k v) k = some (optVal v) := by
  unfold assignField
  rw [if_neg (fun hc => h hc.1)]
  exact getProp_setProp_same o k _

theorem assignField_proto (o : JSObj) (v : Option JSString)
    (h : getProp o (lit "__proto__") = none) : assignField o (lit "__proto__") v = o := by
  unfold assignField
  rw [if_pos ⟨rfl, h⟩]

/-- An assignment of the script never makes an own property `__proto__`. -/
theorem getProp_assignField_proto (o : JSObj) (k : JSString) (v : Option JSString)
    (h : getProp o (lit "__proto__") = none) :
    getProp (assignField o k v) (lit "__proto__") = none := by
  by_cases hk : k = lit "__proto__"
  · rw [hk, assignField_proto o v h]
    exact h
  · rw [getProp_assignField_ne o v (Ne.symm hk)]
    exact h

/-- The two `if` statements of the loop body act as one test. -/
theorem scrapeStep_eq (fd : JSObj) (el : FormElement) :
    scrapeStep fd el = if Recorded el then assignField fd (fieldKey el) el.val else fd := by
  have ht : el.tagName = Tag.input ∨ el.tagName = Tag.textarea := by
    cases el.tagName
    · exact Or.inl rfl
    · exact Or.inr rfl
  unfold scrapeStep Recorded fieldKey
  by_cases h1 : el.type = some (lit "checkbox")
  · have h3 : ¬ (el.type ≠ some (lit "checkbox") ∧ el.type ≠ some (lit "submit")) :=
      fun h => h.1 h1
    have h4 : ¬ ((el.tagName = Tag.input ∨ el.tagName = Tag.textarea) ∧
        el.type ≠ some (lit "checkbox") ∧ el.type ≠ some (lit "submit")) := fun h => h.2.1 h1
    by_cases h2 : el.checked = some (lit "checked")
    · have h6 : el.type = some (lit "checkbox") ∧ el.checked = some (lit "checked") :=
        ⟨h1, h2⟩
      rw [if_neg h4, if_pos h6, if_pos (Or.inr h6)]
    · have h5 : ¬ (el.type = some (lit "checkbox") ∧ el.checked = some (lit "checked")) :=
        fun h => h2 h.2
      rw [if_neg h4, if_neg h5, if_neg (fun h => h.elim h3 h5)]
  · have h5 : ¬ (el.type = some (lit "checkbox") ∧ el.checked = some (lit "checked")) :=
      fun h => h1 h.1
    by_cases h2 : el.type = some (lit "submit")
    · have h3 : ¬ (el.type ≠ some (lit "checkbox") ∧ el.type ≠ some (lit "submit")) :=
        fun h => h.2 h2
      have h4 : ¬ ((el.tagName = Tag.input ∨ el.tagName = Tag.textarea) ∧
          el.type ≠ some (lit "checkbox") ∧ el.type ≠ some (lit "submit")) :=
        fun h => h.2.2 h2
      rw [if_neg h4, if_neg h5, if_neg (fun h => h.elim h3 h5)]
    · have h6 : el.type ≠ some (lit "checkbox") ∧ el.type ≠ some (lit "submit") := ⟨h1, h2⟩
      have h7 : (el.tagName = Tag.input ∨ el.tagName = Tag.textarea) ∧
          el.type ≠ some (lit "checkbox") ∧ el.type ≠ some (lit "submit") := ⟨ht, h6⟩
      rw [if_pos h7, if_neg h5, if_pos (Or.inl h6)]

theorem getProp_scrapeStep_proto (fd : JSObj) (el : FormElement)
    (h : getProp fd (lit "__proto__") = none) :
    getProp (scrapeStep fd el) (lit "__proto__") = none := by
  rw [scrapeStep_eq]
  split_ifs
  · exact getProp_assignField_proto fd _ _ h
  · exact h

theorem getProp_scrape_foldl (els : List FormElement) (acc : JSObj)
    (hacc : getProp acc (lit "__proto__") = none)
    (h : (els.map fieldKey).Nodup) (k : JSString) (v : JSVal) :
    getProp (els.foldl scrapeStep acc) k = some v ↔
      (∃ el ∈ els, fieldKey el = k ∧ optVal el.val = v ∧ Stored el) ∨
        ((∀ el ∈ els, fieldKey el = k → ¬ Stored el) ∧ getProp acc k = some v) := by
  induction els generalizing acc with
  | nil => simp
  | cons el els ih =>
    have hnd : fieldKey el ∉ els.map fieldKey ∧ (els.map fieldKey).Nodup := by
      simpa using h
    rw [List.foldl_cons, ih _ (getProp_scrapeStep_proto acc el hacc) hnd.2]
    by_cases hq : fieldKey el = k ∧ Stored el
    · obtain ⟨hk, hr⟩ := hq
      have hno : ∀ e ∈ els, fieldKey e ≠ k := by
        intro e he hek
        exact hnd.1 (hk ▸ hek ▸ List.mem_map_of_mem fieldKey he)
      have hacc' : getProp (scrapeStep acc el) k = some (optVal el.val) := by
        rw [scrapeStep_eq, if_pos hr.1, ← hk]
        exact getProp_assignField_same acc _ hr.2
      rw [hacc']
      constructor
      · rintro (⟨e, he, hek, _⟩ | ⟨_, hv⟩)
        · exact absurd hek (hno e he)
        · exact Or.inl ⟨el, List.mem_cons_self _ _, hk, by simpa using hv, hr⟩
      · rintro (⟨e, he, hek, hev, _⟩ | ⟨hall, _⟩)
        · rcases List.mem_cons.1 he with rfl | he'
          · exact Or.inr ⟨fun e' he' hek' => absurd hek' (hno e' he'), by rw [hev]⟩
          · exact absurd hek (hno e he')
        · exact absurd hr (hall el (List.mem_cons_self _ _) hk)
    · have hacc' : getProp (scrapeStep acc el) k = getProp acc k := by
        rw [scrapeStep_eq]
        by_cases hr : Recorded el
        · rw [if_pos hr]
          by_cases hk : k = fieldKey el
          · have hp : fieldKey el = lit "__proto__" := by
              by_contra hne
              exact hq ⟨hk.symm, hr, hne⟩
            rw [hp, assignField_proto acc _ hacc]
          · exact getProp_assignField_ne acc _ hk
        · rw [if_neg hr]
      rw [hacc']
      constructor
      · rintro (⟨e, he, hek, hev, her⟩ | ⟨hall, hv⟩)
        · exact Or.inl ⟨e, List.mem_cons_of_mem _ he, hek, hev, her⟩
        · refine Or.inr ⟨?_, hv⟩
          intro e he hek
          rcases List.mem_cons.1 he with rfl | he'
          · exact fun hr => hq ⟨hek, hr⟩
          · exact hall e he' hek
      · rintro (⟨e, he, hek, hev, her⟩ | ⟨hall, hv⟩)
        · rcases List.mem_cons.1 he with rfl | he'
          · exact absurd ⟨hek, her⟩ hq
          · exact Or.inl ⟨e, he', hek, hev, her⟩
        · exact Or.inr ⟨fun e he => hall e (List.mem_cons_of_mem _ he), hv⟩

/-- C6, refuted as stated. The form whose only element is
`<textarea type="submit" name="note">text</textarea>` holds a textarea, which the claim lists
as recorded, yet the scraped map has no key `note`. The form whose only element is
`<input type="text" name="__proto__" value="x">` holds an input that is neither checkbox nor
submit, which the claim lists as recorded, yet the scraped map has no key at all. -/
theorem C6_counterexample :
    (([sampleTypedTextarea].map fieldKey).Nodup ∧ ClaimedRecorded sampleTypedTextarea ∧
        getProp (scrapeForm [sampleTypedTextarea]) (fieldKey sampleTypedTextarea) = none) ∧
      (([sampleProtoInput].map fieldKey).Nodup ∧ ClaimedRecorded sampleProtoInput ∧
        scrapeForm [sampleProtoInput] = []) := by
  decide

/-- C6, amended. For every list of input/textarea elements of the post-edit form with pairwise
distinct names, the scraped map holds `name -> value` for exactly the elements whose name is
not `__proto__` and that are (a) a textarea or input whose type attribute is neither `checkbox`
nor `submit`, whatever its checked state, or (b) an element whose type attribute is `checkbox`
and that is checked; an element of type `checkbox` that is not checked, an element of type
`submit` and an element named `__proto__` contribute no key. -/
theorem C6_scrape_checkbox_semantics (els : List FormElement)
    (h : (els.map fieldKey).Nodup) :
    (∀ k v, getProp (scrapeForm els) k = some v ↔
        ∃ el ∈ els, fieldKey el = k ∧ optVal el.val = v ∧
          Recorded el ∧ fieldKey el ≠ lit "__proto__") ∧
      ∀ el ∈ els, ¬ (Recorded el ∧ fieldKey el ≠ lit "__proto__") →
        getProp (scrapeForm els) (fieldKey el) = none := by
  have main : ∀ k v, getProp (scrapeForm els) k = some v ↔
      ∃ el ∈ els, fieldKey el = k ∧ optVal el.val = v ∧ Stored el := by
    intro k v
    unfold scrapeForm
    rw [getProp_scrape_foldl els [] rfl h k v]
    simp [getProp]
  refine ⟨main, ?_⟩
  intro el hel hr
  cases hg : getProp (scrapeForm els) (fieldKey el) with
  | none => rfl
  | some v =>
    obtain ⟨e, he, hek, _, her⟩ := (main _ v).1 hg
    have : e = el := by
      by_contra hne
      have hinj := List.inj_on_of_nodup_map h he hel hek
      exact hne hinj
    exact absurd (this ▸ her) hr

theorem C6_scrape_checkbox_semantics_witness :
    (sampleForm.map fieldKey).Nodup ∧
      getProp (scrapeForm sampleForm) (lit "lock") = some (JSVal.str (lit "1")) ∧
      getProp (scrapeForm sampleForm) (lit "notify") = none ∧
      getProp (scrapeForm sampleForm) (lit "post") = none :=
  have h : (sampleForm.map fieldKey).Nodup := by decide
  ⟨h,
    ((C6_scrape_checkbox_semantics sampleForm h).1 (lit "lock") (JSVal.str (lit "1"))).2
      ⟨{ tagName := Tag.input, type := some (lit "checkbox"), name := some (lit "lock"),
          checked := some (lit "checked"), val := some (lit "1") },
        by decide, by decide, by decide, by decide, by decide⟩,
    (C6_scrape_checkbox_semantics sampleForm h).2
      { tagName := Tag.input, type := some (lit "checkbox"), name := some (lit "notify"),
        checked := none, val := some (lit "1") } (by decide) (by decide),
    (C6_scrape_checkbox_semantics sampleForm h).2
      { tagName := Tag.input, type := some (lit "submit"), name := some (lit "post"),
        checked := none, val := some (lit "Save") } (by decide) (by decide)⟩

/-! ## Properties of the token extraction -/

theorem filterXss_of_values (els : List HiddenInput)
    (h : ∀ el ∈ els, el.value.isSome = true) :
    filterXss els = Except.ok (els.filter hasTokenLength) := by
  induction els with
  | nil => rfl
  | cons el els ih =>
    have h1 : el.value.isSome = true := h el (List.mem_cons_self _ _)
    have h2 : ∀ e ∈ els, e.value.isSome = true := fun e he => h e (List.mem_cons_of_mem _ he)
    obtain ⟨v, hv⟩ := Option.isSome_iff_exists.1 h1
    unfold filterXss
    rw [ih h2]
    by_cases hl : v.length = 32
    · simp [valueLengthIs32, hasTokenLength, hv, hl, List.filter_cons]
    · simp [valueLengthIs32, hasTokenLength, hv, hl, List.filter_cons]

theorem filterXss_of_valueless (pre post : List HiddenInput) (el : HiddenInput)
    (hpre : ∀ e ∈ pre, e.value.isSome = true) (hel : el.value = none) :
    filterXss (pre ++ el :: post) = Except.error JSError.typeError := by
  induction pre with
  | nil => simp [filterXss, valueLengthIs32, hel]
  | cons p pre ih =>
    have h1 : p.value.isSome = true := hpre p (List.mem_cons_self _ _)
    obtain ⟨v, hv⟩ := Option.isSome_iff_exists.1 h1
    have h2 := ih (fun e he => hpre e (List.mem_cons_of_mem _ he))
    rw [List.cons_append]
    unfold filterXss
    rw [h2]
    simp [valueLengthIs32, hv]

/-- When every hidden input carries a value attribute, the token is the first one whose value
has length 32: elements before it with another length do not matter. -/
theorem getXssInput_first_match (r : Response) (pre post : List HiddenInput)
    (el : HiddenInput) (hsplit : r.body.hiddenInputs = pre ++ el :: post)
    (hall : ∀ e ∈ r.body.hiddenInputs, e.value.isSome = true)
    (hpre : ∀ e ∈ pre, hasTokenLength e = false) (hel : hasTokenLength el = true) :
    getXssInput r = Except.ok { name := el.name, value := el.value } := by
  unfold getXssInput
  rw [filterXss_of_values _ hall, hsplit, List.filter_append]
  have e1 : pre.filter hasTokenLength = [] := by
    rw [List.filter_eq_nil_iff]
    intro e he
    simp [hpre e he]
  simp [e1, List.filter_cons, hel]

/-- C4, evaluated at a failing input. The page holds `<input type="hidden" name="sc">` (no
value attribute, so no value of length 32) followed by a hidden input whose value has length
32. The claim gives that second input's name and value as the result; the code throws a
`TypeError` at `el.attribs.value.length` on the first one. -/
theorem C4_getXssInput_valueless_input :
    hasTokenLength sampleValuelessInput = false ∧ hasTokenLength sampleTokenInput = true ∧
      getXssInput (pageOf [sampleTokenInput] []) =
        Except.ok { name := sampleTokenInput.name, value := sampleTokenInput.value } ∧
      getXssInput (pageOf [sampleValuelessInput, sampleTokenInput] []) =
        Except.error JSError.typeError :=
  ⟨rfl, rfl, rfl, rfl⟩

/-- C5, refuted as stated: a page whose only hidden input has the value `45557` contains no
hidden input with a value of length 32, yet `getXssInput` and `getSessionInfo` return
normally, with a token whose name and value are `undefined`. -/
theorem C5_counterexample :
    (∀ el ∈ (pageOf [sampleShortInput] []).body.hiddenInputs, hasTokenLength el = false) ∧
      getXssInput (pageOf [sampleShortInput] []) = Except.ok { name := none, value := none } ∧
      getSessionInfo (pageOf [sampleShortInput] []) =
        Except.ok
          { xss := { name := none, value := none }
            cookies := (pageOf [sampleShortInput] []).cookies
            user := none } :=
  ⟨by decide, rfl, rfl⟩

/-- C5, amended. For every page that contains no hidden input with a value of length 32 and
whose hidden inputs all carry a value attribute, `getXssInput` raises no error and returns a
token whose name and value are both `undefined`, and `getSessionInfo` returns a session with
that token and the response's cookies. -/
theorem C5_no_token_returns_undefined (r : Response)
    (h : ∀ el ∈ r.body.hiddenInputs, el.value.isSome = true ∧ hasTokenLength el = false) :
    getXssInput r = Except.ok { name := none, value := none } ∧
      getSessionInfo r =
        Except.ok { xss := { name := none, value := none }, cookies := r.cookies, user := none } := by
  have e : getXssInput r = Except.ok { name := none, value := none } := by
    unfold getXssInput
    rw [filterXss_of_values _ (fun el hel => (h el hel).1)]
    have e1 : r.body.hiddenInputs.filter hasTokenLength = [] := by
      rw [List.filter_eq_nil_iff]
      intro el hel
      simp [(h el hel).2]
    simp [e1]
  refine ⟨e, ?_⟩
  unfold getSessionInfo
  rw [e]

theorem C5_no_token_returns_undefined_witness :
    (∀ el ∈ (pageOf [sampleShortInput, sampleShortInput] []).body.hiddenInputs,
        el.value.isSome = true ∧ hasTokenLength el = false) ∧
      getXssInput (pageOf [sampleShortInput, sampleShortInput] []) =
        Except.ok { name := none, value := none } ∧
      getSessionInfo (pageOf [sampleShortInput, sampleShortInput] []) =
        Except.ok { xss := { name := none, value := none },
                    cookies := (pageOf [sampleShortInput, sampleShortInput] []).cookies,
                    user := none } :=
  ⟨by decide,
    C5_no_token_returns_undefined (pageOf [sampleShortInput, sampleShortInput] [])
      (by decide)⟩

/-! ## Properties of `login` and `Update` -/

theorem login_of_guest (sha1 : JSString → JSString) (net : Net) (session : Session)
    (username password : JSString) (resp : Response)
    (h : net.postLogin (loginFormData sha1 session username password) = Except.ok resp)
    (hg : resp.body.userText = lit "Guest") :
    login sha1 net session username password =
      (Except.error JSError.authenticationFailed,
        [Event.postLogin (loginFormData sha1 session username password)]) := by
  unfold login
  simp only [h]
  rw [if_pos hg]

theorem login_of_not_guest (sha1 : JSString → JSString) (net : Net) (session : Session)
    (username password : JSString) (resp : Response)
    (h : net.postLogin (loginFormData sha1 session username password) = Except.ok resp)
    (hg : resp.body.userText ≠ lit "Guest") :
    login sha1 net session username password =
      (Except.ok
          { session with
            cookies := mergeInto session.cookies resp.cookies, user := some resp.body.userText },
        [Event.postLogin (loginFormData sha1 session username password)]) := by
  unfold login
  simp only [h]
  rw [if_neg hg]

/-- The events of `login` never include the edit-form fetch. -/
theorem login_events (sha1 : JSString → JSString) (net : Net) (session : Session)
    (username password : JSString) :
    (login sha1 net session username password).2 =
      [Event.postLogin (loginFormData sha1 session username password)] := by
  cases h : net.postLogin (loginFormData sha1 session username password) with
  | error e => simp only [login, h]
  | ok resp =>
    by_cases hg : resp.body.userText = lit "Guest"
    · rw [login_of_guest sha1 net session username password resp h hg]
    · rw [login_of_not_guest sha1 net session username password resp h hg]

/-- The result of `Update` is `true` exactly when the bootstrap and the login succeed: what
`doUpdate` does has no part in it. -/
theorem Update_result_iff (sha1 : JSString → JSString) (net : Net)
    (username password : JSString) (msg : Nat) (topic : JSString) (contents : JSObj) :
    (Update sha1 net username password msg topic contents).result = true ↔
      ∃ login_form session session', net.getForum = Except.ok login_form ∧
        getSessionInfo login_form = Except.ok session ∧
        (login sha1 net session username password).1 = Except.ok session' := by
  cases h1 : net.getForum with
  | error e => simp [Update, h1]
  | ok login_form =>
    cases h2 : getSessionInfo login_form with
    | error e => simp [Update, h1, h2]
    | ok session =>
      rcases h3 : login sha1 net session username password with ⟨r, evs⟩
      cases r with
      | error e => simp [Update, h1, h2, h3]
      | ok session' => simp [Update, h1, h2, h3]

/-- C8, evaluated at two failing inputs. On a forum where bootstrap and login succeed and the
edit-form fetch fails, and on one where only the final submission fails, the promise of
`doUpdate` is rejected but `Update` returns `true`: `doUpdate( ... )` is called without
`await`, so its rejection never reaches the `catch` block. The claim gives `false`. -/
theorem C8_update_true_despite_failed_edit :
    (sampleUpdate netEditFetchFails).result = true ∧
      (sampleUpdate netEditFetchFails).background = some (Except.error JSError.network) ∧
      (sampleUpdate netSubmitFails).result = true ∧
      (sampleUpdate netSubmitFails).background = some (Except.error JSError.network) :=
  ⟨rfl, rfl, rfl, rfl⟩

/-- C9. Given the page that answers the login request, `login` fails exactly when the text of
the user name indicator is the string `Guest`; on every other text it succeeds and records that
text as `session.user`; and when the text is `Guest`, `Update` returns `false` and `doUpdate`
is never started: no edit-form fetch is issued. -/
theorem C9_guest_login_aborts (sha1 : JSString → JSString) (net : Net)
    (username password : JSString) (msg : Nat) (topic : JSString) (contents : JSObj)
    (login_form resp : Response) (session : Session)
    (h1 : net.getForum = Except.ok login_form)
    (h2 : getSessionInfo login_form = Except.ok session)
    (h3 : net.postLogin (loginFormData sha1 session username password) = Except.ok resp) :
    ((∃ e, (login sha1 net session username password).1 = Except.error e) ↔
        resp.body.userText = lit "Guest") ∧
      (resp.body.userText ≠ lit "Guest" →
        (login sha1 net session username password).1 =
          Except.ok
            { session with
              cookies := mergeInto session.cookies resp.cookies
              user := some resp.body.userText }) ∧
      (resp.body.userText = lit "Guest" →
        (Update sha1 net username password msg topic contents).result = false ∧
          (Update sha1 net username password msg topic contents).background = none ∧
          ∀ ev ∈ (Update sha1 net username password msg topic contents).events,
            ev.isGetEditForm = false) := by
  refine ⟨?_, ?_, ?_⟩
  · constructor
    · rintro ⟨e, he⟩
      by_contra hg
      rw [login_of_not_guest sha1 net session username password resp h3 hg] at he
      exact Except.noConfusion he
    · intro hg
      exact ⟨JSError.authenticationFailed, by
        rw [login_of_guest sha1 net session username password resp h3 hg]⟩
  · intro hg
    rw [login_of_not_guest sha1 net session username password resp h3 hg]
  · intro hg
    have hl := login_of_guest sha1 net session username password resp h3 hg
    have hU : Update sha1 net username password msg topic contents =
        { result := false
          events := [Event.getForum,
            Event.postLogin (loginFormData sha1 session username password)]
          background := none } := by
      simp only [Update, h1, h2, hl]
    rw [hU]
    refine ⟨rfl, rfl, ?_⟩
    intro ev hev
    simp only [List.mem_cons, List.mem_singleton, List.not_mem_nil, or_false] at hev
    rcases hev with rfl | rfl <;> rfl

theorem C9_guest_login_aborts_witness :
    netGuest.getForum = Except.ok (pageOf [sampleTokenInput] (lit "Guest")) ∧
      getSessionInfo (pageOf [sampleTokenInput] (lit "Guest")) = Except.ok sampleSession ∧
      (sampleUpdate netGuest).result = false ∧ (sampleUpdate netGuest).background = none ∧
      ∀ ev ∈ (sampleUpdate netGuest).events, ev.isGetEditForm = false :=
  ⟨rfl, rfl,
    (C9_guest_login_aborts sampleDigest netGuest (lit "me") (lit "secret") 433374
      (lit "45557.0") sampleOverride (pageOf [sampleTokenInput] (lit "Guest"))
      (pageOf [sampleTokenInput] (lit "Guest")) sampleSession rfl rfl rfl).2.2 rfl⟩

end ForumThreadUpdater
